import Mathlib

/-!
Verification of the data-preparation pipeline and redraw handler of the
Copenhagen average-income choropleth app (`map-avg-income-districts-cph.py`).

The program loads a GeoJSON of district boundaries and a CSV of
income-by-year-by-district, cleans district names, reshapes the CSV from
wide to long format, attaches feature ids, computes a color scale and its
tick labels, and serves an interactive map whose redraw handler filters the
long table by the selected year.

The embedding below is parametric in the data (the data files are static
assets, not source code): each Python step becomes a Lean function of the
loaded data.
-/

namespace CphMap

/-! ## Arithmetic helpers mirroring Python builtins -/

/-- The Python builtin `round(x, -4)` on an integer: round to the nearest
multiple of 10000, ties to the even multiple (banker rounding). Python `//`
and `%` are floor division / nonnegative remainder for a positive modulus,
which matches `Int.ediv` / `Int.emod`. -/
def round10k (x : ℤ) : ℤ :=
  if x % 10000 < 5000 then 10000 * (x / 10000)
  else if 5000 < x % 10000 then 10000 * (x / 10000 + 1)
  else if (x / 10000) % 2 = 0 then 10000 * (x / 10000)
  else 10000 * (x / 10000 + 1)

/-- The Python builtin `range(start, stop, step)` for a positive `step`, as a list:
`start, start+step, ...` strictly below `stop`. Its length is
`max 0 (ceil ((stop-start)/step))`. -/
def pyRange (start stop step : ℤ) : List ℤ :=
  (List.range ((stop - start + step - 1) / step).toNat).map
    (fun i : ℕ => start + step * (i : ℤ))

/-- `pandas.Series.max` over a nonempty column (the `[]` case is never used
by the program: the CSV is nonempty). -/
def colMax : List ℤ → ℤ
  | [] => 0
  | a :: l => l.foldl max a

/-- `pandas.Series.min` over a nonempty column. -/
def colMin : List ℤ → ℤ
  | [] => 0
  | a :: l => l.foldl min a

/-- `pandas.Series.unique`: distinct values in order of first occurrence. -/
def pdUnique : List ℤ → List ℤ
  | [] => []
  | a :: l => a :: pdUnique (l.filter (fun b => b ≠ a))
termination_by l => l.length
decreasing_by
  simp only [List.length_cons]
  exact Nat.lt_succ_of_le (List.length_filter_le _ _)

/-! ## District-name cleaning (lines 24–28) -/

/-- The single literal name correction applied by the `Series.replace` call
on the district column: a dict replace substitutes whole cell values that
match a key (here the one slash-spelled Vesterbro label, replaced by its
dash-spelled form), leaving all other cells unchanged. -/
def correctName (s : String) : String :=
  if s = "Vesterbro/Kongens Enghave" then "Vesterbro-Kongens Enghave" else s

/-- Cleaning of one district cell: the slice dropping the first 11
characters, followed by the single name correction. -/
def cleanDistrict (s : String) : String :=
  correctName (s.drop 11)

/-! ## Geo id lookup (lines 17–19) -/

/-- One GeoJSON feature: its `properties.navn` (district name) and `id`. -/
structure Feature where
  navn : String
  fid : String
deriving DecidableEq, Repr

/-- `districts_id_map`: the dict built by inserting `navn ↦ id` for each
feature in order; a later feature with the same name overwrites an earlier
one, so lookup finds the last matching feature. A missing key is `none`
(a Python `KeyError`). -/
def districts_id_map (features : List Feature) : String → Option String :=
  fun n => (features.reverse.find? (fun f => f.navn = n)).map Feature.fid

/-! ## Wide table and melt (lines 31–36) -/

/-- The cleaned CSV in wide format: one `district` cell per row, one numeric
year per value column, and the value matrix row-major
(`values[i][j]` is the income of district `i` in year `j`). `year` headers
are already cast to integers (`astype(int)` on the melted column). -/
structure WideTable where
  districts : List String
  years : List ℤ
  values : List (List ℤ)
deriving DecidableEq, Repr

/-- One row of the long table `df_income_long` before the id column. -/
structure IncomeRow where
  district : String
  year : ℤ
  avg_income : ℤ
deriving DecidableEq, Repr

/-- One row of `df_income_long` after the `id` column is attached. -/
structure Row where
  district : String
  year : ℤ
  avg_income : ℤ
  id : String
deriving DecidableEq, Repr

/-- Helper for `melt`: emit the block of rows for each remaining year
column, `j` being the index of the first remaining column in the value
matrix. `pandas.melt` orders the output by value column first, source row
second. -/
def meltCols (districts : List String) (values : List (List ℤ)) :
    List ℤ → ℕ → List IncomeRow
  | [], _ => []
  | y :: ys, j =>
      ((districts.zip values).map
        (fun q => ⟨q.1, y, q.2.getD j 0⟩)) ++ meltCols districts values ys (j + 1)

/-- The `df_income.melt` call (id column district, variable name year,
value name avg_income) with the year column cast to `int`. -/
def melt (t : WideTable) : List IncomeRow :=
  meltCols t.districts t.values t.years 0

/-! ## Id attachment (line 39) -/

/-- `df_income_long["district"].apply(lambda x: districts_id_map[x])`
stored as the `id` column: succeeds only if every district name is a key of
the map; a single missing name raises `KeyError`, modelled as `none`. -/
def attachIds (idmap : String → Option String) : List IncomeRow → Option (List Row)
  | [] => some []
  | r :: rs =>
      match idmap r.district, attachIds idmap rs with
      | some i, some rest => some (⟨r.district, r.year, r.avg_income, i⟩ :: rest)
      | _, _ => none

/-- The row-wise contract of the id attachment: output rows carry the same
district, year and income as the input rows, plus the id the lookup maps
their district name to. -/
def RelIds (idmap : String → Option String) (r : IncomeRow) (o : Row) : Prop :=
  o.district = r.district ∧ o.year = r.year ∧ o.avg_income = r.avg_income ∧
    idmap r.district = some o.id

/-! ## Color bar (lines 42–54) -/

/-- The assignment of `max_value_colorbar`: the maximum of the avg_income
column, rounded with `round(x, -4)`, plus 10000. -/
def max_value_colorbar (incomes : List ℤ) : ℤ :=
  round10k (colMax incomes) + 10000

/-- The assignment of `min_value_colorbar`: the minimum of the avg_income
column, rounded with `round(x, -4)`, minus 10000. -/
def min_value_colorbar (incomes : List ℤ) : ℤ :=
  round10k (colMin incomes) - 10000

/-- `colorbar_values = list(range(min_value_colorbar, max_value_colorbar, 40000))`. -/
def colorbar_values (incomes : List ℤ) : List ℤ :=
  pyRange (min_value_colorbar incomes) (max_value_colorbar incomes) 40000

/-- Grouping step of the Python comma format spec for integers: decimal
digits grouped in threes from the right. -/
def chunk3 : List Char → List (List Char)
  | [] => []
  | [a] => [[a]]
  | [a, b] => [[a, b]]
  | a :: b :: c :: rest => [a, b, c] :: chunk3 rest

/-- Comma-grouped decimal rendering of a natural number. -/
def formatCommaNat (m : ℕ) : String :=
  String.mk ((List.intersperse [','] (chunk3 (Nat.repr m).data.reverse)).flatten.reverse)

/-- The Python comma-grouped integer format (the format spec used by the
program via `map` over the tick values): digit groups of three separated by
commas, with a leading minus sign for negatives. -/
def formatComma (n : ℤ) : String :=
  if n < 0 then "-" ++ formatCommaNat n.natAbs else formatCommaNat n.toNat

/-- The assignment of `colorbar_text`: each tick value rendered with the
comma-grouped integer format. -/
def colorbar_text (incomes : List ℤ) : List String :=
  (colorbar_values incomes).map formatComma

/-- One iteration of the loop body, a Python `str.replace` of comma by
dot: since the pattern is the single comma character, replacing every
occurrence is mapping each comma character to a dot. -/
def replaceCommaDot (s : String) : String :=
  String.mk (s.data.map (fun c => if c = ',' then '.' else c))

/-- The loop over `colorbar_text` replacing `","` with `"."` in each label,
accumulated into `colorbar_text_dot`. -/
def colorbar_text_dot (incomes : List ℤ) : List String :=
  (colorbar_text incomes).map replaceCommaDot

/-! ## Slider configuration (lines 81–90) -/

/-- The year-slider `dcc.Slider` configuration: `smin`/`smax` are the
extremes of the year column of the long table, the initial `value` is the
maximum year, `marks` carries one entry per distinct year (modelled by the
year values; the UI labels each with `str(year)`), and a `none` step
disables intermediate steps. -/
structure SliderConfig where
  smin : ℤ
  smax : ℤ
  value : ℤ
  marks : List ℤ
  step : Option ℤ
  included : Bool
deriving DecidableEq, Repr

/-- Build the year slider from the year column of the long table. -/
def makeSlider (years : List ℤ) : SliderConfig :=
  ⟨colMin years, colMax years, colMax years, pdUnique years, none, false⟩

/-! ## The redraw handler `update_figure` (lines 101–147) -/

/-- One colored region of the choropleth trace: its `locations` entry (the
feature id), its color-driving value (`avg_income`), and its
`custom_data=["district", "year", "avg_income"]` triple used by the hover
template. -/
structure Region where
  location : String
  colorValue : ℤ
  customDistrict : String
  customYear : ℤ
  customIncome : ℤ
deriving DecidableEq, Repr

/-- The figure returned by `update_figure`: the per-row regions plus the
chart-level configuration that the handler sets (color range, colorbar
ticks and labels, hover template, separators, color scale and height). -/
structure Figure where
  regions : List Region
  rangeColorMin : ℤ
  rangeColorMax : ℤ
  tickvals : List ℤ
  ticktext : List String
  hovertemplate : String
  separators : String
  colorScale : String
  height : ℤ
deriving DecidableEq, Repr

/-- The module-level state the handler reads: the precomputed long table
and color-scale values. The handler never writes any of it. -/
structure SharedState where
  df_income_long : List Row
  min_value_colorbar : ℤ
  max_value_colorbar : ℤ
  colorbar_values : List ℤ
  colorbar_text_dot : List String
deriving DecidableEq, Repr

/-- The hover template string set by `fig.update_traces`. -/
def hoverTemplate : String :=
  "</br><b>%\x7bcustomdata[0]\x7d</b></br>Year: %\x7bcustomdata[1]\x7d</br>Avg. income: %\x7bcustomdata[2]:,.d\x7d dkr."

/-- `update_figure(selected_year)`: filter the long table to the selected
year and build a fresh figure from the filtered rows and the precomputed
color scale. The Python function only reads module-level state; the
embedding passes the state explicitly and returns it unchanged alongside
the new figure. -/
def update_figure (st : SharedState) (selected_year : ℤ) : Figure × SharedState :=
  let filtered_df := st.df_income_long.filter (fun r => r.year = selected_year)
  (⟨filtered_df.map (fun r => ⟨r.id, r.avg_income, r.district, r.year, r.avg_income⟩),
    st.min_value_colorbar,
    st.max_value_colorbar,
    st.colorbar_values,
    st.colorbar_text_dot,
    hoverTemplate,
    ",.",
    "YlGn",
    800⟩, st)

/-! ## Concrete sample data for witnesses -/

/-- A two-district, two-year wide table used as concrete witness data. -/
def sampleWide : WideTable :=
  ⟨["A", "B"], [2019, 2020], [[1, 2], [3, 4]]⟩

/-- A geo lookup covering the two sample districts. -/
def sampleIdMap : String → Option String :=
  fun n => if n = "A" then some "i1" else if n = "B" then some "i2" else none

/-- The long table obtained from `sampleWide` with ids from `sampleIdMap`. -/
def sampleTbl : List Row :=
  [⟨"A", 2019, 1, "i1"⟩, ⟨"B", 2019, 3, "i2"⟩,
   ⟨"A", 2020, 2, "i1"⟩, ⟨"B", 2020, 4, "i2"⟩]

/-- A shared state holding the sample long table. -/
def sampleState : SharedState :=
  ⟨sampleTbl, 230000, 330000, [], []⟩

/-! ## Helper lemmas -/

theorem round10k_ge (x : ℤ) : x - 5000 ≤ round10k x := by
  unfold round10k; split_ifs <;> omega

theorem round10k_le (x : ℤ) : round10k x ≤ x + 5000 := by
  unfold round10k; split_ifs <;> omega

theorem round10k_mult (x : ℤ) : round10k x % 10000 = 0 := by
  unfold round10k; split_ifs <;> omega

theorem pyRange_length (a b s : ℤ) :
    (pyRange a b s).length = ((b - a + s - 1) / s).toNat := by
  simp [pyRange]

theorem pyRange_getD (a b s : ℤ) (i : ℕ) (h : i < (pyRange a b s).length) :
    (pyRange a b s).getD i 0 = a + s * (i : ℤ) := by
  rw [List.getD_eq_getElem _ _ h]
  simp only [pyRange] at h ⊢
  simp at h
  simp [h]

theorem pyRange_mem_lt (a b : ℤ) (v : ℤ) (hv : v ∈ pyRange a b 40000) : v < b := by
  simp only [pyRange, List.mem_map, List.mem_range] at hv
  obtain ⟨i, hi, rfl⟩ := hv
  omega

theorem foldl_max_init (l : List ℤ) : ∀ a : ℤ, a ≤ l.foldl max a := by
  induction l with
  | nil => intro a; simp
  | cons b l ih =>
      intro a
      calc a ≤ max a b := le_max_left a b
        _ ≤ l.foldl max (max a b) := ih (max a b)
        _ = (b :: l).foldl max a := rfl

theorem foldl_max_mem (l : List ℤ) : ∀ a : ℤ, l.foldl max a = a ∨ l.foldl max a ∈ l := by
  induction l with
  | nil => intro a; simp
  | cons b l ih =>
      intro a
      rcases ih (max a b) with h | h
      · rcases max_choice a b with hm | hm
        · left; simpa [hm] using h
        · right; rw [List.foldl_cons, h, hm]; exact List.mem_cons_self b l
      · right; exact List.mem_cons_of_mem b h

theorem le_foldl_max (l : List ℤ) : ∀ a x : ℤ, x ∈ l → x ≤ l.foldl max a := by
  induction l with
  | nil => intro a x h; simp at h
  | cons b l ih =>
      intro a x h
      rcases List.mem_cons.mp h with rfl | h
      · calc x ≤ max a x := le_max_right a x
          _ ≤ l.foldl max (max a x) := foldl_max_init l (max a x)
          _ = (x :: l).foldl max a := rfl
      · exact ih (max a b) x h

theorem foldl_min_init (l : List ℤ) : ∀ a : ℤ, l.foldl min a ≤ a := by
  induction l with
  | nil => intro a; simp
  | cons b l ih =>
      intro a
      calc (b :: l).foldl min a = l.foldl min (min a b) := rfl
        _ ≤ min a b := ih (min a b)
        _ ≤ a := min_le_left a b

theorem foldl_min_mem (l : List ℤ) : ∀ a : ℤ, l.foldl min a = a ∨ l.foldl min a ∈ l := by
  induction l with
  | nil => intro a; simp
  | cons b l ih =>
      intro a
      rcases ih (min a b) with h | h
      · rcases min_choice a b with hm | hm
        · left; simpa [hm] using h
        · right; rw [List.foldl_cons, h, hm]; exact List.mem_cons_self b l
      · right; exact List.mem_cons_of_mem b h

theorem foldl_min_le (l : List ℤ) : ∀ a x : ℤ, x ∈ l → l.foldl min a ≤ x := by
  induction l with
  | nil => intro a x h; simp at h
  | cons b l ih =>
      intro a x h
      rcases List.mem_cons.mp h with rfl | h
      · calc (x :: l).foldl min a = l.foldl min (min a x) := rfl
          _ ≤ min a x := foldl_min_init l (min a x)
          _ ≤ x := min_le_right a x
      · exact ih (min a b) x h

theorem colMax_mem (l : List ℤ) (h : l ≠ []) : colMax l ∈ l := by
  match l with
  | [] => exact absurd rfl h
  | a :: l =>
      rcases foldl_max_mem l a with h1 | h1
      · rw [colMax, h1]; exact List.mem_cons_self a l
      · exact List.mem_cons_of_mem a h1

theorem le_colMax (l : List ℤ) (x : ℤ) (hx : x ∈ l) : x ≤ colMax l := by
  match l with
  | [] => simp at hx
  | a :: l =>
      rcases List.mem_cons.mp hx with rfl | hx
      · exact foldl_max_init l x
      · exact le_foldl_max l a x hx

theorem colMin_mem (l : List ℤ) (h : l ≠ []) : colMin l ∈ l := by
  match l with
  | [] => exact absurd rfl h
  | a :: l =>
      rcases foldl_min_mem l a with h1 | h1
      · rw [colMin, h1]; exact List.mem_cons_self a l
      · exact List.mem_cons_of_mem a h1

theorem colMin_le (l : List ℤ) (x : ℤ) (hx : x ∈ l) : colMin l ≤ x := by
  match l with
  | [] => simp at hx
  | a :: l =>
      rcases List.mem_cons.mp hx with rfl | hx
      · exact foldl_min_init l x
      · exact foldl_min_le l a x hx

theorem colMin_le_colMax (l : List ℤ) (h : l ≠ []) : colMin l ≤ colMax l :=
  colMin_le l (colMax l) (colMax_mem l h)

/-! ## C1: color-scale tick values -/

/-- C1 (amended): for any nonempty income column, `colorbar_values` is
nonempty, consecutive ticks differ by exactly 40000 (hence the list is
strictly increasing), the smallest tick is at most the minimum observed
income, and the computed upper endpoint `max_value_colorbar` is at least
the maximum observed income — but every tick is strictly below that
endpoint, so the largest tick need not reach the maximum observed income
(the original clause that the largest tick is at least the maximum fails,
see the counterexample). -/
theorem colorbar_values_spec (incomes : List ℤ) (h : incomes ≠ []) :
    colorbar_values incomes ≠ [] ∧
    (∀ i : ℕ, i + 1 < (colorbar_values incomes).length →
      (colorbar_values incomes).getD (i + 1) 0 =
        (colorbar_values incomes).getD i 0 + 40000) ∧
    List.Pairwise (· < ·) (colorbar_values incomes) ∧
    (colorbar_values incomes).getD 0 0 ≤ colMin incomes ∧
    colMax incomes ≤ max_value_colorbar incomes ∧
    (∀ v ∈ colorbar_values incomes, v < max_value_colorbar incomes) := by
  have hmm : colMin incomes ≤ colMax incomes := colMin_le_colMax incomes h
  have h1 := round10k_ge (colMax incomes)
  have h2 := round10k_le (colMin incomes)
  have ha : min_value_colorbar incomes = round10k (colMin incomes) - 10000 := rfl
  have hb : max_value_colorbar incomes = round10k (colMax incomes) + 10000 := rfl
  have hcv : colorbar_values incomes =
      pyRange (min_value_colorbar incomes) (max_value_colorbar incomes) 40000 := rfl
  have hlen : (colorbar_values incomes).length =
      ((max_value_colorbar incomes - min_value_colorbar incomes + 40000 - 1) / 40000).toNat := by
    rw [hcv, pyRange_length]
  have hab : min_value_colorbar incomes + 10000 ≤ max_value_colorbar incomes := by omega
  have hlenpos : 0 < (colorbar_values incomes).length := by rw [hlen]; omega
  refine ⟨List.ne_nil_of_length_pos hlenpos, ?_, ?_, ?_, by omega, ?_⟩
  · intro i hi
    rw [hcv] at hi ⊢
    rw [pyRange_getD _ _ _ _ hi, pyRange_getD _ _ _ _ (by omega)]
    push_cast
    ring
  · rw [hcv, List.pairwise_iff_getElem]
    intro i j hi hj hij
    rw [← List.getD_eq_getElem _ 0 hi, ← List.getD_eq_getElem _ 0 hj,
      pyRange_getD _ _ _ _ hi, pyRange_getD _ _ _ _ hj]
    omega
  · rw [hcv]
    rw [hcv] at hlenpos
    rw [pyRange_getD _ _ _ 0 hlenpos]
    omega
  · intro v hv
    exact pyRange_mem_lt _ _ v (hcv ▸ hv)

/-- Witness for the amended C1 theorem at the concrete income column
`[237000, 318000]`. -/
theorem colorbar_values_spec_witness :
    (([237000, 318000] : List ℤ) ≠ []) ∧
    (colorbar_values [237000, 318000] ≠ [] ∧
    (∀ i : ℕ, i + 1 < (colorbar_values [237000, 318000]).length →
      (colorbar_values [237000, 318000]).getD (i + 1) 0 =
        (colorbar_values [237000, 318000]).getD i 0 + 40000) ∧
    List.Pairwise (· < ·) (colorbar_values [237000, 318000]) ∧
    (colorbar_values [237000, 318000]).getD 0 0 ≤ colMin [237000, 318000] ∧
    colMax [237000, 318000] ≤ max_value_colorbar [237000, 318000] ∧
    (∀ v ∈ colorbar_values [237000, 318000], v < max_value_colorbar [237000, 318000])) :=
  ⟨by decide, colorbar_values_spec [237000, 318000] (by decide)⟩

/-- Counterexample to C1 as stated: for the income column `[0, 90000]` the
tick list is `[-10000, 30000, 70000]`, whose largest tick 70000 is strictly
below the maximum observed income 90000. -/
theorem colorbar_last_tick_below_max :
    colorbar_values [0, 90000] = [-10000, 30000, 70000] ∧
    (colorbar_values [0, 90000]).getLast? = some 70000 ∧
    colMax [0, 90000] = 90000 ∧
    ¬ (90000 : ℤ) ≤ 70000 := by decide

/-! ## C2: color-scale range endpoints -/

/-- C2: the color-range endpoints are the observed extremes rounded to the
nearest multiple of ten thousand (ties to even, so always within 5000),
padded by +10000 above and −10000 below. -/
theorem colorbar_endpoints_spec (incomes : List ℤ) (_h : incomes ≠ []) :
    ∃ M m : ℤ,
      M % 10000 = 0 ∧ colMax incomes - 5000 ≤ M ∧ M ≤ colMax incomes + 5000 ∧
      max_value_colorbar incomes = M + 10000 ∧
      m % 10000 = 0 ∧ colMin incomes - 5000 ≤ m ∧ m ≤ colMin incomes + 5000 ∧
      min_value_colorbar incomes = m - 10000 := by
  refine ⟨round10k (colMax incomes), round10k (colMin incomes),
    round10k_mult _, round10k_ge _, round10k_le _, rfl,
    round10k_mult _, round10k_ge _, round10k_le _, rfl⟩

/-- Witness for C2 at the concrete income column `[237000, 318000]`. -/
theorem colorbar_endpoints_spec_witness :
    (([237000, 318000] : List ℤ) ≠ []) ∧
    (∃ M m : ℤ,
      M % 10000 = 0 ∧ colMax [237000, 318000] - 5000 ≤ M ∧
      M ≤ colMax [237000, 318000] + 5000 ∧
      max_value_colorbar [237000, 318000] = M + 10000 ∧
      m % 10000 = 0 ∧ colMin [237000, 318000] - 5000 ≤ m ∧
      m ≤ colMin [237000, 318000] + 5000 ∧
      min_value_colorbar [237000, 318000] = m - 10000) :=
  ⟨by decide, colorbar_endpoints_spec [237000, 318000] (by decide)⟩

/-! ## C3: shape of the melted long table -/

theorem meltCols_length (d : List String) (v : List (List ℤ))
    (hv : v.length = d.length) :
    ∀ (ys : List ℤ) (j : ℕ), (meltCols d v ys j).length = ys.length * d.length := by
  intro ys
  induction ys with
  | nil => intro j; simp [meltCols]
  | cons y ys ih =>
      intro j
      simp only [meltCols, List.length_append, List.length_map, List.length_zip,
        hv, min_self, ih, List.length_cons]
      ring

theorem zip_map_fst {γ : Type} (d : List String) (v : List (List ℤ))
    (h : d.length ≤ v.length) (f : String → γ) :
    (d.zip v).map (fun q => f q.1) = d.map f := by
  have h1 : (fun q : String × List ℤ => f q.1) = f ∘ Prod.fst := rfl
  rw [h1, ← List.map_map, List.map_fst_zip d v h]

theorem meltCols_pairs (d : List String) (v : List (List ℤ))
    (hv : v.length = d.length) :
    ∀ (ys : List ℤ) (j : ℕ),
      (meltCols d v ys j).map (fun r => (r.district, r.year)) =
        ys.flatMap (fun y => d.map (fun x => (x, y))) := by
  intro ys
  induction ys with
  | nil => intro j; simp [meltCols]
  | cons y ys ih =>
      intro j
      simp only [meltCols, List.map_append, List.map_map, ih, List.flatMap_cons]
      congr 1
      exact zip_map_fst d v (le_of_eq hv.symm) (fun x => (x, y))

/-- C3: when the value matrix has one row per district, `melt` produces
exactly (number of districts) × (number of year columns) rows, and the
(district, year) projection of the long table is exactly the product of
the year headers (cast to integers) with the district column. -/
theorem melt_shape (t : WideTable) (hv : t.values.length = t.districts.length) :
    (melt t).length = t.districts.length * t.years.length ∧
    (melt t).map (fun r => (r.district, r.year)) =
      t.years.flatMap (fun y => t.districts.map (fun d => (d, y))) := by
  constructor
  · rw [melt, meltCols_length t.districts t.values hv]; ring
  · exact meltCols_pairs t.districts t.values hv t.years 0

/-- Witness for C3 on a concrete 2-district, 2-year table. -/
theorem melt_shape_witness :
    ((WideTable.mk ["A", "B"] [2019, 2020] [[1, 2], [3, 4]]).values.length =
      (WideTable.mk ["A", "B"] [2019, 2020] [[1, 2], [3, 4]]).districts.length) ∧
    ((melt (WideTable.mk ["A", "B"] [2019, 2020] [[1, 2], [3, 4]])).length =
      (WideTable.mk ["A", "B"] [2019, 2020] [[1, 2], [3, 4]]).districts.length *
        (WideTable.mk ["A", "B"] [2019, 2020] [[1, 2], [3, 4]]).years.length ∧
    (melt (WideTable.mk ["A", "B"] [2019, 2020] [[1, 2], [3, 4]])).map
        (fun r => (r.district, r.year)) =
      (WideTable.mk ["A", "B"] [2019, 2020] [[1, 2], [3, 4]]).years.flatMap
        (fun y => (WideTable.mk ["A", "B"] [2019, 2020] [[1, 2], [3, 4]]).districts.map
          (fun d => (d, y)))) :=
  ⟨by decide, melt_shape (WideTable.mk ["A", "B"] [2019, 2020] [[1, 2], [3, 4]]) (by decide)⟩

/-! ## C7: district-name cleaning -/

/-- C7: on any cell made of an 11-character prefix followed by the district
name, cleaning drops exactly the prefix and then applies the single literal
correction: every name other than `"Vesterbro/Kongens Enghave"` is left
unchanged, and that one name becomes `"Vesterbro-Kongens Enghave"`. -/
theorem clean_district_spec (p s : String) (hp : p.length = 11) :
    cleanDistrict (p ++ s) = correctName s ∧
    (s ≠ "Vesterbro/Kongens Enghave" → cleanDistrict (p ++ s) = s) ∧
    cleanDistrict (p ++ "Vesterbro/Kongens Enghave") = "Vesterbro-Kongens Enghave" := by
  have hdrop : ∀ t : String, (p ++ t).drop 11 = t := by
    intro t
    apply String.ext
    simp only [String.data_drop, String.data_append]
    rw [← hp]
    exact List.drop_left p.data t.data
  refine ⟨by rw [cleanDistrict, hdrop s], ?_, ?_⟩
  · intro hs
    rw [cleanDistrict, hdrop s, correctName, if_neg hs]
  · rw [cleanDistrict, hdrop]
    decide

/-- Witness for C7 with the prefix `"00000000000"` and the corrected name. -/
theorem clean_district_spec_witness :
    ("00000000000" : String).length = 11 ∧
    (cleanDistrict ("00000000000" ++ "Vesterbro/Kongens Enghave") =
      correctName "Vesterbro/Kongens Enghave" ∧
    (("Vesterbro/Kongens Enghave" : String) ≠ "Vesterbro/Kongens Enghave" →
      cleanDistrict ("00000000000" ++ "Vesterbro/Kongens Enghave") =
        "Vesterbro/Kongens Enghave") ∧
    cleanDistrict ("00000000000" ++ "Vesterbro/Kongens Enghave") =
      "Vesterbro-Kongens Enghave") :=
  ⟨by decide, clean_district_spec "00000000000" "Vesterbro/Kongens Enghave" (by decide)⟩

/-! ## C8: thousands-separator formatting of tick labels -/

/-- C8: each colorbar label is the comma-grouped rendering of the tick with
commas turned into dots; 240000 is grouped as `"240,000"` and rendered as
`"240.000"`, and an income column whose single tick is 240000 yields the
label list `["240.000"]`. -/
theorem colorbar_label_dot :
    replaceCommaDot (formatComma 240000) = "240.000" ∧
    formatComma 240000 = "240,000" ∧
    colorbar_values [250000, 260000] = [240000] ∧
    colorbar_text_dot [250000, 260000] = ["240.000"] ∧
    (∀ incomes, colorbar_text_dot incomes =
      (colorbar_values incomes).map (fun v => replaceCommaDot (formatComma v))) := by
  refine ⟨by decide, by decide, by decide, by decide, ?_⟩
  intro l
  rw [colorbar_text_dot, colorbar_text, List.map_map]
  rfl

/-! ## C10: year-slider configuration -/

theorem pdUnique_mem (l : List ℤ) (x : ℤ) : x ∈ pdUnique l ↔ x ∈ l := by
  induction l using pdUnique.induct with
  | case1 => simp [pdUnique]
  | case2 a l ih =>
      rw [pdUnique]
      by_cases hx : x = a
      · subst hx; simp
      · simp only [List.mem_cons, ih, List.mem_filter]
        constructor
        · rintro (rfl | ⟨h1, _⟩)
          · exact Or.inl rfl
          · exact Or.inr h1
        · rintro (rfl | h1)
          · exact Or.inl rfl
          · exact Or.inr ⟨h1, by simpa using hx⟩

theorem pdUnique_nodup (l : List ℤ) : (pdUnique l).Nodup := by
  induction l using pdUnique.induct with
  | case1 => simp [pdUnique]
  | case2 a l ih =>
      rw [pdUnique]
      refine List.Nodup.cons ?_ ih
      intro hmem
      rcases (pdUnique_mem _ a).mp hmem with h1
      rcases List.mem_filter.mp h1 with ⟨_, h2⟩
      simp at h2

/-- C10: the slider built from the year column of the long table starts at the
most recent year (its initial value equals its maximum), its min/max are
the extreme years, its marks are exactly the distinct years (no
duplicates, same membership), and stepping is disabled. -/
theorem slider_spec (years : List ℤ) (h : years ≠ []) :
    (makeSlider years).value = (makeSlider years).smax ∧
    (makeSlider years).smax ∈ years ∧
    (∀ y ∈ years, y ≤ (makeSlider years).smax) ∧
    (makeSlider years).smin ∈ years ∧
    (∀ y ∈ years, (makeSlider years).smin ≤ y) ∧
    (makeSlider years).marks.Nodup ∧
    (∀ y : ℤ, y ∈ (makeSlider years).marks ↔ y ∈ years) ∧
    (makeSlider years).step = none :=
  ⟨rfl, colMax_mem years h, fun y hy => le_colMax years y hy,
    colMin_mem years h, fun y hy => colMin_le years y hy,
    pdUnique_nodup years, fun y => pdUnique_mem years y, rfl⟩

/-- Witness for C10 at the concrete year column `[2015, 2019, 2017]`. -/
theorem slider_spec_witness :
    (([2015, 2019, 2017] : List ℤ) ≠ []) ∧
    ((makeSlider [2015, 2019, 2017]).value = (makeSlider [2015, 2019, 2017]).smax ∧
    (makeSlider [2015, 2019, 2017]).smax ∈ ([2015, 2019, 2017] : List ℤ) ∧
    (∀ y ∈ ([2015, 2019, 2017] : List ℤ), y ≤ (makeSlider [2015, 2019, 2017]).smax) ∧
    (makeSlider [2015, 2019, 2017]).smin ∈ ([2015, 2019, 2017] : List ℤ) ∧
    (∀ y ∈ ([2015, 2019, 2017] : List ℤ), (makeSlider [2015, 2019, 2017]).smin ≤ y) ∧
    (makeSlider [2015, 2019, 2017]).marks.Nodup ∧
    (∀ y : ℤ, y ∈ (makeSlider [2015, 2019, 2017]).marks ↔ y ∈ ([2015, 2019, 2017] : List ℤ)) ∧
    (makeSlider [2015, 2019, 2017]).step = none) :=
  ⟨by decide, slider_spec [2015, 2019, 2017] (by decide)⟩

/-! ## C6: purity of the redraw handler -/

/-- C6: `update_figure` returns the shared precomputed state unchanged, and
re-invoking it on the state it returns with the same selected year yields
the same figure: its only effect is the freshly built figure. -/
theorem update_figure_pure (st : SharedState) (y : ℤ) :
    (update_figure st y).2 = st ∧
    (update_figure (update_figure st y).2 y).1 = (update_figure st y).1 :=
  ⟨rfl, rfl⟩

/-! ## C5: unknown selected year -/

/-- C5: if the selected year does not occur in the year column of the long
table, the filtered subset is empty, so the returned figure has no
colored regions (and the handler still returns a figure — it is total). -/
theorem update_figure_year_absent (st : SharedState) (y : ℤ)
    (h : y ∉ st.df_income_long.map Row.year) :
    ((update_figure st y).1).regions = [] := by
  have hf : st.df_income_long.filter (fun r => r.year = y) = [] := by
    rw [List.filter_eq_nil_iff]
    intro r hr hry
    exact h (List.mem_map.mpr ⟨r, hr, by simpa using hry⟩)
  show (st.df_income_long.filter (fun r => r.year = y)).map _ = []
  rw [hf]
  rfl

/-- Witness for C5: a one-row table queried with a year it does not
contain. -/
theorem update_figure_year_absent_witness :
    ((2021 : ℤ) ∉ (SharedState.mk [Row.mk "Indre By" 2020 300000 "k1"] 0 0 [] []).df_income_long.map Row.year) ∧
    ((update_figure (SharedState.mk [Row.mk "Indre By" 2020 300000 "k1"] 0 0 [] []) 2021).1).regions = [] :=
  ⟨by decide,
    update_figure_year_absent (SharedState.mk [Row.mk "Indre By" 2020 300000 "k1"] 0 0 [] []) 2021 (by decide)⟩

/-! ## C4: id attachment and the geo id lookup -/

theorem attachIds_eq_none_iff (idmap : String → Option String) :
    ∀ rows : List IncomeRow,
      attachIds idmap rows = none ↔ ∃ r ∈ rows, idmap r.district = none := by
  intro rows
  induction rows with
  | nil => simp [attachIds]
  | cons r rs ih =>
      rw [attachIds]
      cases h1 : idmap r.district with
      | none =>
          constructor
          · intro _
            exact ⟨r, List.mem_cons_self r rs, h1⟩
          · intro _
            cases h2 : attachIds idmap rs <;> rfl
      | some i =>
          cases h2 : attachIds idmap rs with
          | none =>
              constructor
              · intro _
                obtain ⟨r', hr', hmap⟩ := ih.mp h2
                exact ⟨r', List.mem_cons_of_mem r hr', hmap⟩
              · intro _
                rfl
          | some out =>
              constructor
              · intro habs
                exact Option.noConfusion habs
              · rintro ⟨r', hr', hnone⟩
                exfalso
                rcases List.mem_cons.mp hr' with rfl | hr''
                · rw [h1] at hnone
                  exact Option.noConfusion hnone
                · have h3 : attachIds idmap rs = none := ih.mpr ⟨r', hr'', hnone⟩
                  rw [h2] at h3
                  exact Option.noConfusion h3

theorem attachIds_forall2 (idmap : String → Option String) :
    ∀ (rows : List IncomeRow) (out : List Row),
      attachIds idmap rows = some out → List.Forall₂ (RelIds idmap) rows out := by
  intro rows
  induction rows with
  | nil =>
      intro out h
      rw [attachIds] at h
      cases h
      exact List.Forall₂.nil
  | cons r rs ih =>
      intro out h
      rw [attachIds] at h
      cases h1 : idmap r.district with
      | none => rw [h1] at h; exact Option.noConfusion h
      | some i =>
          rw [h1] at h
          cases h2 : attachIds idmap rs with
          | none => rw [h2] at h; exact Option.noConfusion h
          | some rest =>
              rw [h2] at h
              cases h
              exact List.Forall₂.cons ⟨rfl, rfl, rfl, h1⟩ (ih rest h2)

theorem districts_id_map_eq_none (features : List Feature) (n : String) :
    districts_id_map features n = none ↔ ∀ f ∈ features, f.navn ≠ n := by
  simp [districts_id_map, List.find?_eq_none]

/-- C4: attaching ids fails (the `KeyError` propagates, the app never
serves) exactly when some district name of the long table is the `navn` of
no geo feature; when it succeeds, each output row keeps its district, year
and income and carries the feature id that `districts_id_map` assigns to
its district name. -/
theorem attach_ids_spec (features : List Feature) (rows : List IncomeRow) :
    (attachIds (districts_id_map features) rows = none ↔
      ∃ r ∈ rows, ∀ f ∈ features, f.navn ≠ r.district) ∧
    (∀ out, attachIds (districts_id_map features) rows = some out →
      List.Forall₂ (RelIds (districts_id_map features)) rows out) := by
  constructor
  · rw [attachIds_eq_none_iff]
    simp only [districts_id_map_eq_none]
  · exact attachIds_forall2 (districts_id_map features) rows

/-- Witness for C4: with the single feature `A ↦ i1`, attaching ids to a
one-row table for district `A` succeeds with id `i1`, and a one-row table
for the unknown district `Z` makes the attachment fail. -/
theorem attach_ids_spec_witness :
    List.Forall₂ (RelIds (districts_id_map [Feature.mk "A" "i1"]))
      [IncomeRow.mk "A" 2020 1] [Row.mk "A" 2020 1 "i1"] ∧
    attachIds (districts_id_map [Feature.mk "A" "i1"]) [IncomeRow.mk "Z" 2020 1] = none :=
  ⟨(attach_ids_spec [Feature.mk "A" "i1"] [IncomeRow.mk "A" 2020 1]).2
      [Row.mk "A" 2020 1 "i1"] (by decide),
    (attach_ids_spec [Feature.mk "A" "i1"] [IncomeRow.mk "Z" 2020 1]).1.mpr
      ⟨IncomeRow.mk "Z" 2020 1, by decide, by decide⟩⟩

/-! ## C9: redraw output for a year present in the data -/

theorem meltCols_filter_ne (d : List String) (v : List (List ℤ)) (y : ℤ) :
    ∀ (ys : List ℤ) (j : ℕ), y ∉ ys →
      (meltCols d v ys j).filter (fun r => r.year = y) = [] := by
  intro ys
  induction ys with
  | nil => intro j _; simp [meltCols]
  | cons y' ys ih =>
      intro j hy
      have hyy : y ≠ y' := fun h => hy (h ▸ List.mem_cons_self y' ys)
      have hys : y ∉ ys := fun h => hy (List.mem_cons_of_mem y' h)
      rw [meltCols, List.filter_append, ih (j + 1) hys, List.append_nil]
      rw [List.filter_eq_nil_iff]
      intro r hr
      obtain ⟨q, _, rfl⟩ := List.mem_map.mp hr
      simp [hyy.symm]

theorem meltCols_filter_mem (d : List String) (v : List (List ℤ)) (y : ℤ) :
    ∀ (ys : List ℤ) (j : ℕ), ys.Nodup → y ∈ ys →
      ∃ j0, (meltCols d v ys j).filter (fun r => r.year = y) =
        (d.zip v).map (fun q => ⟨q.1, y, q.2.getD j0 0⟩) := by
  intro ys
  induction ys with
  | nil => intro j _ hy; simp at hy
  | cons y' ys ih =>
      intro j hnd hy
      have hnotin : y' ∉ ys := (List.nodup_cons.mp hnd).1
      have hndtail : ys.Nodup := (List.nodup_cons.mp hnd).2
      rcases List.mem_cons.mp hy with rfl | hy'
      · refine ⟨j, ?_⟩
        rw [meltCols, List.filter_append, meltCols_filter_ne d v y ys (j + 1) hnotin,
          List.append_nil, List.filter_eq_self.mpr]
        intro r hr
        obtain ⟨q, _, rfl⟩ := List.mem_map.mp hr
        simp
      · have hyy : y' ≠ y := fun h => hnotin (h ▸ hy')
        obtain ⟨j0, hj0⟩ := ih (j + 1) hndtail hy'
        refine ⟨j0, ?_⟩
        rw [meltCols, List.filter_append, hj0]
        have hblock : ((d.zip v).map
            (fun q => (⟨q.1, y', q.2.getD j 0⟩ : IncomeRow))).filter
              (fun r => r.year = y) = [] := by
          rw [List.filter_eq_nil_iff]
          intro r hr
          obtain ⟨q, _, rfl⟩ := List.mem_map.mp hr
          simp [hyy]
        rw [hblock, List.nil_append]

theorem forall2_filter_year (idmap : String → Option String) (y : ℤ) :
    ∀ (l1 : List IncomeRow) (l2 : List Row), List.Forall₂ (RelIds idmap) l1 l2 →
      List.Forall₂ (RelIds idmap)
        (l1.filter (fun r => r.year = y)) (l2.filter (fun o => o.year = y)) := by
  intro l1 l2 h
  induction h with
  | nil => simp
  | cons hr _ ih =>
      rename_i a b l1' l2' _
      obtain ⟨hd, hyr, hi, hm⟩ := hr
      by_cases hc : a.year = y
      · rw [List.filter_cons_of_pos (by simp [hc]),
          List.filter_cons_of_pos (by simp [hyr, hc])]
        exact List.Forall₂.cons ⟨hd, hyr, hi, hm⟩ ih
      · rw [List.filter_cons_of_neg (by simp [hc]),
          List.filter_cons_of_neg (by simp [hyr, hc])]
        exact ih

theorem forall2_map_district (idmap : String → Option String) :
    ∀ (l1 : List IncomeRow) (l2 : List Row), List.Forall₂ (RelIds idmap) l1 l2 →
      l2.map Row.district = l1.map IncomeRow.district := by
  intro l1 l2 h
  induction h with
  | nil => rfl
  | cons hr _ ih => simp [ih, hr.1]

theorem zip_fst (d : List String) (v : List (List ℤ)) (h : d.length ≤ v.length) :
    (d.zip v).map (fun q => q.1) = d := by
  have h1 : (fun q : String × List ℤ => q.1) = Prod.fst := rfl
  rw [h1, List.map_fst_zip d v h]

/-- C9: when the long table is the melt of a wide table (distinct year
headers, one value row per district) with ids attached, filtering by any
year present in the headers yields one colored region per district, in
district order; the hover customdata of every region carries the selected
year and the color-driving value of the region is its income; and the hover
template is the literal district / year / income format string. -/
theorem update_figure_year_present
    (t : WideTable) (idmap : String → Option String) (tbl : List Row)
    (st : SharedState) (y : ℤ)
    (hv : t.values.length = t.districts.length)
    (hnd : t.years.Nodup) (hy : y ∈ t.years)
    (htbl : attachIds idmap (melt t) = some tbl)
    (hst : st.df_income_long = tbl) :
    ((update_figure st y).1).regions.length = t.districts.length ∧
    ((update_figure st y).1).regions.map Region.customDistrict = t.districts ∧
    (∀ reg ∈ ((update_figure st y).1).regions,
      reg.customYear = y ∧ reg.colorValue = reg.customIncome) ∧
    ((update_figure st y).1).hovertemplate =
      "</br><b>%\x7bcustomdata[0]\x7d</b></br>Year: %\x7bcustomdata[1]\x7d</br>Avg. income: %\x7bcustomdata[2]:,.d\x7d dkr." := by
  subst hst
  have hregions : ((update_figure st y).1).regions =
      (st.df_income_long.filter (fun r => r.year = y)).map
        (fun r => ⟨r.id, r.avg_income, r.district, r.year, r.avg_income⟩) := rfl
  have hf2 := attachIds_forall2 idmap (melt t) st.df_income_long htbl
  have hfil := forall2_filter_year idmap y (melt t) st.df_income_long hf2
  obtain ⟨j0, hj0⟩ := meltCols_filter_mem t.districts t.values y t.years 0 hnd hy
  have hmf : (melt t).filter (fun r => r.year = y) =
      (t.districts.zip t.values).map
        (fun q => (⟨q.1, y, q.2.getD j0 0⟩ : IncomeRow)) := hj0
  have hlen2 : (st.df_income_long.filter (fun o => o.year = y)).length =
      t.districts.length := by
    rw [← List.Forall₂.length_eq hfil, hmf, List.length_map, List.length_zip, hv,
      min_self]
  refine ⟨?_, ?_, ?_, rfl⟩
  · rw [hregions, List.length_map, hlen2]
  · rw [hregions, List.map_map]
    have hcomp : (Region.customDistrict ∘ fun r : Row =>
        (⟨r.id, r.avg_income, r.district, r.year, r.avg_income⟩ : Region)) =
        Row.district := rfl
    rw [hcomp, forall2_map_district idmap _ _ hfil, hmf, List.map_map]
    exact zip_fst t.districts t.values (le_of_eq hv.symm)
  · intro reg hmemreg
    rw [hregions] at hmemreg
    obtain ⟨r, hr, rfl⟩ := List.mem_map.mp hmemreg
    have hry : r.year = y := by simpa using (List.mem_filter.mp hr).2
    exact ⟨hry, rfl⟩

/-- Witness for C9: the sample table queried for the year 2020 yields one
region per sample district with the 2020 customdata. -/
theorem update_figure_year_present_witness :
    (sampleWide.values.length = sampleWide.districts.length ∧
      sampleWide.years.Nodup ∧ (2020 : ℤ) ∈ sampleWide.years ∧
      attachIds sampleIdMap (melt sampleWide) = some sampleTbl) ∧
    (((update_figure sampleState 2020).1).regions.length =
        sampleWide.districts.length ∧
    ((update_figure sampleState 2020).1).regions.map Region.customDistrict =
      sampleWide.districts ∧
    (∀ reg ∈ ((update_figure sampleState 2020).1).regions,
      reg.customYear = 2020 ∧ reg.colorValue = reg.customIncome) ∧
    ((update_figure sampleState 2020).1).hovertemplate =
      "</br><b>%\x7bcustomdata[0]\x7d</b></br>Year: %\x7bcustomdata[1]\x7d</br>Avg. income: %\x7bcustomdata[2]:,.d\x7d dkr.") :=
  ⟨⟨by decide, by decide, by decide, by decide⟩,
    update_figure_year_present sampleWide sampleIdMap sampleTbl sampleState 2020
      (by decide) (by decide) (by decide) (by decide) rfl⟩

end CphMap
